import Mathlib

/-!
Verification of the remote-control session transport core.

The definitions below are shallow embeddings of the Go sources of the
repository: machine integers (`int`, `int64`) are modelled as `Int` (the
program never exercises overflow for these counters), byte counts as `Int`
or `Nat`, `time.Time` values as integer nanoseconds since the epoch with
the Go zero time modelled as `0`, and fallible operations as `Except` or
`Option`.  Stateful code is modelled by explicit state passing: each
mutating method becomes a function from the receiver to the updated
receiver (plus its return value), and a run of the system is a fold of
such steps over a list of operations.
-/

namespace RC

/-! ## Flow controller, from `internal/websocket/flow.go` -/

/-- Enum `flowEvent` from flow.go: `flowEventNone`, `flowEventPause`, `flowEventResume`. -/
inductive flowEvent where
  | none
  | pause
  | resume
deriving DecidableEq

/-- Structure `flowController` from flow.go: low/high watermarks, pending byte count, paused flag. -/
structure flowController where
  low : Int
  high : Int
  pending : Int
  paused : Bool
deriving DecidableEq

/-- Constructor `newFlowController` from flow.go: non-positive `low` falls back to 512 KiB,
non-positive `high` to 2 MiB; if `low > high` after that, `low` becomes
`high / 2`, bumped to `1` when that quotient is non-positive. -/
def newFlowController (low high : Int) : flowController :=
  let low := if low ≤ 0 then 512 * 1024 else low
  let high := if high ≤ 0 then 2 * 1024 * 1024 else high
  let low :=
    if high < low then
      let l := high / 2
      if l ≤ 0 then 1 else l
    else low
  { low := low, high := high, pending := 0, paused := false }

/-- Method `flowController.onSent` from flow.go: ignore `n <= 0`; add `n` to `pending`;
when not paused and `pending > high`, set `paused` and emit Pause. -/
def flowController.onSent (f : flowController) (n : Int) : flowController × flowEvent :=
  if n ≤ 0 then (f, .none)
  else
    let f := { f with pending := f.pending + n }
    if f.paused = false ∧ f.high < f.pending then
      ({ f with paused := true }, .pause)
    else (f, .none)

/-- Method `flowController.onAck` from flow.go: ignore `n <= 0`; subtract `n` from
`pending`, flooring at zero; when paused and `pending <= low`, clear `paused`
and emit Resume. -/
def flowController.onAck (f : flowController) (n : Int) : flowController × flowEvent :=
  if n ≤ 0 then (f, .none)
  else
    let p := f.pending - n
    let f := { f with pending := if p < 0 then 0 else p }
    if f.paused = true ∧ f.pending ≤ f.low then
      ({ f with paused := false }, .resume)
    else (f, .none)

/-- Method `flowController.reset` from flow.go: clear `pending` and `paused`. -/
def flowController.reset (f : flowController) : flowController :=
  { f with pending := 0, paused := false }

/-- One call on the flow controller: `onSent n`, `onAck n`, or `reset`. -/
inductive FlowOp where
  | sent (n : Int)
  | ack (n : Int)
  | reset
deriving DecidableEq

/-- Apply one flow-controller call, keeping the updated state. -/
def applyFlowOp (f : flowController) (op : FlowOp) : flowController :=
  match op with
  | .sent n => (f.onSent n).1
  | .ack n => (f.onAck n).1
  | .reset => f.reset

/-- Run a finite sequence of flow-controller calls from a starting state. -/
def runFlow (f : flowController) (ops : List FlowOp) : flowController :=
  ops.foldl applyFlowOp f

/-- Sum of the arguments of the `onSent` calls of a sequence. -/
def totalSent : List FlowOp → Int
  | [] => 0
  | .sent n :: ops => n + totalSent ops
  | _ :: ops => totalSent ops

/-- Sum of the arguments of the `onAck` calls of a sequence. -/
def totalAcked : List FlowOp → Int
  | [] => 0
  | .ack n :: ops => n + totalAcked ops
  | _ :: ops => totalAcked ops

/-- Data-type invariant of the flow controller maintained by every call:
`pending` is non-negative, the watermarks are ordered, and an unpaused
controller never holds more than `high` pending bytes. -/
def flowInv (f : flowController) : Prop :=
  0 ≤ f.pending ∧ 0 < f.low ∧ f.low ≤ f.high ∧ (f.paused = false → f.pending ≤ f.high)

theorem newFlowController_eq (low high : Int) :
    newFlowController low high =
      { low :=
          if (if high ≤ 0 then 2 * 1024 * 1024 else high) <
              (if low ≤ 0 then 512 * 1024 else low) then
            if (if high ≤ 0 then 2 * 1024 * 1024 else high) / 2 ≤ 0 then 1
            else (if high ≤ 0 then 2 * 1024 * 1024 else high) / 2
          else if low ≤ 0 then 512 * 1024 else low,
        high := if high ≤ 0 then 2 * 1024 * 1024 else high,
        pending := 0, paused := false } := rfl

theorem newFlowController_bounds (low high : Int) :
    0 < (newFlowController low high).low ∧
      (newFlowController low high).low ≤ (newFlowController low high).high := by
  rw [newFlowController_eq]
  dsimp only
  split_ifs <;> omega

theorem newFlowController_inv (low high : Int) : flowInv (newFlowController low high) := by
  obtain ⟨h1, h2⟩ := newFlowController_bounds low high
  refine ⟨?_, h1, h2, ?_⟩
  · rw [newFlowController_eq]
  · intro _
    rw [newFlowController_eq] at h1 h2 ⊢
    dsimp only at h1 h2 ⊢
    omega

theorem onSent_eq (f : flowController) (n : Int) :
    f.onSent n =
      if n ≤ 0 then (f, .none)
      else if f.paused = false ∧ f.high < f.pending + n then
        ({ f with pending := f.pending + n, paused := true }, .pause)
      else ({ f with pending := f.pending + n }, .none) := rfl

theorem onAck_eq (f : flowController) (n : Int) :
    f.onAck n =
      if n ≤ 0 then (f, .none)
      else if f.paused = true ∧ (if f.pending - n < 0 then 0 else f.pending - n) ≤ f.low then
        ({ f with pending := if f.pending - n < 0 then 0 else f.pending - n,
                  paused := false }, .resume)
      else ({ f with pending := if f.pending - n < 0 then 0 else f.pending - n }, .none) := rfl

theorem onSent_inv (f : flowController) (n : Int) (h : flowInv f) :
    flowInv (f.onSent n).1 := by
  obtain ⟨h0, hl, hlh, hp⟩ := h
  rw [onSent_eq]
  by_cases hn : n ≤ 0
  · rw [if_pos hn]
    exact ⟨h0, hl, hlh, hp⟩
  · rw [if_neg hn]
    by_cases hc : f.paused = false ∧ f.high < f.pending + n
    · rw [if_pos hc]
      refine ⟨by dsimp only; omega, hl, hlh, ?_⟩
      intro hfalse
      simp at hfalse
    · rw [if_neg hc]
      refine ⟨by dsimp only; omega, hl, hlh, ?_⟩
      intro hpf
      dsimp only at hpf ⊢
      rcases not_and_or.mp hc with hcp | hcl
      · exact absurd hpf hcp
      · omega

theorem onAck_inv (f : flowController) (n : Int) (h : flowInv f) :
    flowInv (f.onAck n).1 := by
  obtain ⟨h0, hl, hlh, hp⟩ := h
  rw [onAck_eq]
  by_cases hn : n ≤ 0
  · rw [if_pos hn]
    exact ⟨h0, hl, hlh, hp⟩
  · rw [if_neg hn]
    by_cases hc : f.paused = true ∧ (if f.pending - n < 0 then 0 else f.pending - n) ≤ f.low
    · rw [if_pos hc]
      obtain ⟨hcp, hcl⟩ := hc
      refine ⟨by dsimp only; split <;> omega, hl, hlh, ?_⟩
      intro _
      dsimp only
      omega
    · rw [if_neg hc]
      refine ⟨by dsimp only; split <;> omega, hl, hlh, ?_⟩
      intro hpf
      dsimp only at hpf ⊢
      have := hp hpf
      split <;> omega

theorem reset_inv (f : flowController) (h : flowInv f) : flowInv f.reset := by
  obtain ⟨h0, hl, hlh, hp⟩ := h
  exact ⟨le_refl 0, hl, hlh, fun _ => by dsimp [flowController.reset]; omega⟩

theorem applyFlowOp_inv (f : flowController) (op : FlowOp) (h : flowInv f) :
    flowInv (applyFlowOp f op) := by
  cases op with
  | sent n => exact onSent_inv f n h
  | ack n => exact onAck_inv f n h
  | reset => exact reset_inv f h

theorem runFlow_inv (f : flowController) (ops : List FlowOp) (h : flowInv f) :
    flowInv (runFlow f ops) := by
  induction ops generalizing f with
  | nil => exact h
  | cons op ops ih => exact ih (applyFlowOp f op) (applyFlowOp_inv f op h)

theorem runFlow_low_high (f : flowController) (ops : List FlowOp) :
    (runFlow f ops).low = f.low ∧ (runFlow f ops).high = f.high := by
  induction ops generalizing f with
  | nil => exact ⟨rfl, rfl⟩
  | cons op ops ih =>
    have hstep : (applyFlowOp f op).low = f.low ∧ (applyFlowOp f op).high = f.high := by
      cases op with
      | sent n =>
        dsimp only [applyFlowOp]
        rw [onSent_eq]
        by_cases hn : n ≤ 0
        · rw [if_pos hn]; exact ⟨rfl, rfl⟩
        · rw [if_neg hn]
          refine ⟨?_, ?_⟩ <;> split <;> rfl
      | ack n =>
        dsimp only [applyFlowOp]
        rw [onAck_eq]
        by_cases hn : n ≤ 0
        · rw [if_pos hn]; exact ⟨rfl, rfl⟩
        · rw [if_neg hn]
          refine ⟨?_, ?_⟩ <;> split <;> (try split) <;> rfl
      | reset => exact ⟨rfl, rfl⟩
    obtain ⟨ih1, ih2⟩ := ih (applyFlowOp f op)
    exact ⟨by rw [runFlow, List.foldl_cons, ← runFlow, ih1, hstep.1],
           by rw [runFlow, List.foldl_cons, ← runFlow, ih2, hstep.2]⟩

/-- C8: for all `int64` inputs `low`, `high`, the constructed flow controller
satisfies `0 < low ≤ high`; its high watermark is `high` with non-positive
inputs replaced by 2 MiB; its low watermark follows the spec algorithm
(non-positive `low` becomes 512 KiB, and if the corrected low still exceeds
the corrected high it becomes `max 1 (high / 2)`); and positive `low = high`
is accepted unchanged. -/
theorem newFlowController_correct (low high : Int) :
    (0 < (newFlowController low high).low ∧
      (newFlowController low high).low ≤ (newFlowController low high).high) ∧
    (newFlowController low high).high = (if high ≤ 0 then 2 * 1024 * 1024 else high) ∧
    (newFlowController low high).low =
      (if (if high ≤ 0 then 2 * 1024 * 1024 else high) <
          (if low ≤ 0 then 512 * 1024 else low) then
        max 1 ((if high ≤ 0 then 2 * 1024 * 1024 else high) / 2)
      else if low ≤ 0 then 512 * 1024 else low) ∧
    (0 < low → low = high →
      (newFlowController low high).low = low ∧ (newFlowController low high).high = high) := by
  refine ⟨newFlowController_bounds low high, ?_, ?_, ?_⟩
  · rw [newFlowController_eq]
  · rw [newFlowController_eq]
    dsimp only
    split_ifs <;> omega
  · intro hpos heq
    rw [newFlowController_eq]
    dsimp only
    constructor <;> split_ifs <;> omega

/-- C8 witness: the bound and the `low = high` clause at `low = high = 7`,
and the default substitution at non-positive inputs. -/
theorem newFlowController_correct_witness :
    (0 < (7:Int) ∧ (7:Int) = 7) ∧
    ((newFlowController 7 7).low = 7 ∧ (newFlowController 7 7).high = 7) ∧
    (newFlowController 0 0).low = 512 * 1024 ∧ (newFlowController 0 0).high = 2 * 1024 * 1024 := by
  refine ⟨⟨by norm_num, rfl⟩, ?_, ?_, ?_⟩
  · exact (newFlowController_correct 7 7).2.2.2 (by norm_num) rfl
  · rw [(newFlowController_correct 0 0).2.2.1]; decide
  · rw [(newFlowController_correct 0 0).2.1]; decide

/-- C4 counterexample: from `newFlowController 2 5`, the trace
`onSent 3, onAck 5, onSent 6` leaves the controller Paused with the
totals-based outstanding count `max 0 (totalSent − totalAcked) = 4`
above `low = 2`; the next `onAck 2` brings that totals-based count to
`2 ≤ low`, yet the controller stays Paused and the call returns
`flowEventNone`, not Resume — refuting the claim that an `onAck`
bringing the totals-based outstanding count to at most the low
watermark transitions the controller to the resumed state. -/
theorem flow_totals_claim_false :
    (runFlow (newFlowController 2 5) [.sent 3, .ack 5, .sent 6]).paused = true ∧
    (newFlowController 2 5).low <
      max 0 (totalSent [.sent 3, .ack 5, .sent 6] - totalAcked [.sent 3, .ack 5, .sent 6]) ∧
    max 0 (totalSent [.sent 3, .ack 5, .sent 6, .ack 2] -
        totalAcked [.sent 3, .ack 5, .sent 6, .ack 2]) ≤ (newFlowController 2 5).low ∧
    ((runFlow (newFlowController 2 5) [.sent 3, .ack 5, .sent 6]).onAck 2).2 ≠ .resume ∧
    ((runFlow (newFlowController 2 5) [.sent 3, .ack 5, .sent 6]).onAck 2).1.paused = true := by
  decide

/-- C4 (amended): for every finite sequence of `onSent`/`onAck` calls from a
freshly constructed controller, whenever the controller's pending counter
(increased by each positive sent amount, decreased by each positive acked
amount, floored at zero at each call) exceeds the high watermark the
controller is Paused; and while Paused, an `onAck` with a positive argument
that brings the pending counter to at most the low watermark clears the
Paused state and returns the Resume event. -/
theorem flow_watermark_pause_resume (low high : Int) (ops : List FlowOp)
    (_hres : FlowOp.reset ∉ ops) :
    ((runFlow (newFlowController low high) ops).high <
        (runFlow (newFlowController low high) ops).pending →
      (runFlow (newFlowController low high) ops).paused = true) ∧
    (∀ n : Int, (runFlow (newFlowController low high) ops).paused = true → 0 < n →
      ((runFlow (newFlowController low high) ops).onAck n).1.pending ≤
        (runFlow (newFlowController low high) ops).low →
      ((runFlow (newFlowController low high) ops).onAck n).1.paused = false ∧
        ((runFlow (newFlowController low high) ops).onAck n).2 = .resume) := by
  have hinv := runFlow_inv (newFlowController low high) ops (newFlowController_inv low high)
  obtain ⟨h0, hl, hlh, hp⟩ := hinv
  constructor
  · intro hover
    cases hb : (runFlow (newFlowController low high) ops).paused
    · exact absurd (hp hb) (by omega)
    · rfl
  · intro n hpause hn hafter
    set c := runFlow (newFlowController low high) ops with hc
    rw [onAck_eq] at hafter ⊢
    rw [if_neg (by omega : ¬ n ≤ 0)] at hafter ⊢
    by_cases hres : c.paused = true ∧ (if c.pending - n < 0 then 0 else c.pending - n) ≤ c.low
    · rw [if_pos hres]
      exact ⟨rfl, rfl⟩
    · rw [if_neg hres] at hafter ⊢
      dsimp only at hafter
      exact absurd ⟨hpause, hafter⟩ hres

/-- C4 witness for the amended claim: with watermarks `1, 5` the trace
`onSent 7` overflows the high watermark and pauses; the subsequent
`onAck 7` empties the pending counter, resumes, and returns Resume. -/
theorem flow_watermark_pause_resume_witness :
    (FlowOp.reset ∉ ([.sent 7] : List FlowOp)) ∧
    (runFlow (newFlowController 1 5) [.sent 7]).paused = true ∧
    ((runFlow (newFlowController 1 5) [.sent 7]).onAck 7).1.paused = false ∧
    ((runFlow (newFlowController 1 5) [.sent 7]).onAck 7).2 = .resume := by
  have h := flow_watermark_pause_resume 1 5 [.sent 7] (by decide)
  have h2 := h.2 7 (by decide) (by decide) (by decide)
  exact ⟨by decide, by decide, h2.1, h2.2⟩

/-- C10: for every finite sequence of `onSent`, `onAck` and `reset` calls with
arbitrary integer arguments, the pending counter stays non-negative, and a
call of `onSent` or `onAck` with a non-positive argument leaves the whole
controller state unchanged and returns `flowEventNone`. -/
theorem flow_nonneg_and_guard (low high : Int) (ops : List FlowOp) :
    0 ≤ (runFlow (newFlowController low high) ops).pending ∧
    (∀ (f : flowController) (n : Int), n ≤ 0 →
      f.onSent n = (f, .none) ∧ f.onAck n = (f, .none)) := by
  constructor
  · exact (runFlow_inv (newFlowController low high) ops (newFlowController_inv low high)).1
  · intro f n hn
    rw [onSent_eq, onAck_eq, if_pos hn, if_pos hn]
    exact ⟨rfl, rfl⟩

/-- C10 witness: a trace mixing all three calls, including non-positive
arguments, keeps the pending counter non-negative, and `onSent (-3)` on a
concrete controller is a no-op returning `flowEventNone`. -/
theorem flow_nonneg_and_guard_witness :
    0 ≤ (runFlow (newFlowController 1 5) [.sent 2, .ack (-9), .reset, .ack 4, .sent 0]).pending ∧
    (newFlowController 1 5).onSent (-3) = (newFlowController 1 5, .none) ∧
    (newFlowController 1 5).onAck (-3) = (newFlowController 1 5, .none) := by
  refine ⟨(flow_nonneg_and_guard 1 5 [.sent 2, .ack (-9), .reset, .ack 4, .sent 0]).1, ?_⟩
  exact (flow_nonneg_and_guard 1 5 []).2 (newFlowController 1 5) (-3) (by decide)

/-! ## Websocket messages and dispatch, from `internal/websocket/server.go` -/

/-- Predicate `unicode.IsSpace` restricted to the ASCII whitespace the protocol can
carry in a JSON `type` field (Go also accepts a few Unicode spaces that
never occur in the dispatched literals). -/
def isSpaceChar (c : Char) : Bool :=
  c = ' ' ∨ c = '\t' ∨ c = '\n' ∨ c = '\r' ∨ c = '\x0b' ∨ c = '\x0c'

/-- Go `strings.TrimSpace`: drop leading and trailing whitespace. -/
def trimSpace (s : String) : String :=
  ⟨((s.data.dropWhile isSpaceChar).reverse.dropWhile isSpaceChar).reverse⟩

/-- Go `strings.ToLower` on the ASCII range (the dispatched literals are
ASCII). -/
def toLowerChar (c : Char) : Char :=
  if 'A' ≤ c ∧ c ≤ 'Z' then Char.ofNat (c.toNat + 32) else c

/-- Go `strings.ToLower` of a string. -/
def toLowerString (s : String) : String :=
  ⟨s.data.map toLowerChar⟩

/-- Structure `Message` from server.go: the JSON envelope of websocket text frames;
fields absent on the wire decode to Go zero values. -/
structure Message where
  type : String := ""
  token : String := ""
  data : String := ""
  columns : Int := 0
  rows : Int := 0
  bytes : Int := 0
  message : String := ""
deriving DecidableEq

/-- An observable effect of the bridge: `sendText` writes a JSON text frame
to the requesting client, `writePty` passes bytes to `Terminal.WriteInput`,
`resizePty` calls `Terminal.Resize`, `broadcastText` writes a frame to every
client, `closeConn` closes the requesting connection. -/
inductive Action where
  | sendText (msg : Message)
  | writePty (data : String)
  | resizePty (cols rows : Int)
  | broadcastText (msg : Message)
  | closeConn
deriving DecidableEq

/-- Method `Server.handleClientMessage` from server.go: dispatch on the trimmed,
lower-cased message type. `input` is answered with a readonly notice and
dropped when the bridge is read-only, and otherwise written to the pty;
`resize` is forwarded to the pty; `ping` is answered with `pong`; `ack`
feeds the flow controller and broadcasts `flow_resume` when it returns
Resume; `pong` and unknown types are ignored.  It runs only for connections
that passed `authenticate` and `addConn` in `HandleWS`. -/
def handleClientMessage (readonly : Bool) (flow : flowController) (msg : Message) :
    List Action × flowController :=
  if toLowerString (trimSpace msg.type) = "input" then
    if readonly then
      ([.sendText { type := "readonly", message := "🔒 Input blocked: read-only session" }], flow)
    else ([.writePty msg.data], flow)
  else if toLowerString (trimSpace msg.type) = "resize" then
    ([.resizePty msg.columns msg.rows], flow)
  else if toLowerString (trimSpace msg.type) = "ping" then
    ([.sendText { type := "pong" }], flow)
  else if toLowerString (trimSpace msg.type) = "ack" then
    if (flow.onAck msg.bytes).2 = .resume then
      ([.broadcastText { type := "flow_resume", message := "⚡ Output resumed" }],
        (flow.onAck msg.bytes).1)
    else ([], (flow.onAck msg.bytes).1)
  else ([], flow)

/-- C3: while the bridge is read-only, processing any client message never
writes to the pty, and an `input` message is answered with exactly the
readonly notice; a pty write happens only when the bridge is not read-only
and the message is an `input` message, and then the bytes written are the
message's `data` field. -/
theorem readonly_blocks_input (readonly : Bool) (flow : flowController) (msg : Message) :
    (readonly = true →
      ∀ d, Action.writePty d ∉ (handleClientMessage readonly flow msg).1) ∧
    (readonly = true → toLowerString (trimSpace msg.type) = "input" →
      (handleClientMessage readonly flow msg).1 =
        [.sendText { type := "readonly", message := "🔒 Input blocked: read-only session" }]) ∧
    (∀ d, Action.writePty d ∈ (handleClientMessage readonly flow msg).1 →
      readonly = false ∧ toLowerString (trimSpace msg.type) = "input" ∧ d = msg.data) := by
  by_cases h1 : toLowerString (trimSpace msg.type) = "input"
  · by_cases hro : readonly = true
    · have heval : handleClientMessage readonly flow msg =
          ([.sendText { type := "readonly", message := "🔒 Input blocked: read-only session" }], flow) := by
        simp [handleClientMessage, h1, hro]
      refine ⟨?_, ?_, ?_⟩
      · intro _ d
        rw [heval]
        simp
      · intro _ _
        rw [heval]
      · intro d hmem
        rw [heval] at hmem
        simp at hmem
    · have hro2 : readonly = false := by
        cases readonly
        · rfl
        · exact absurd rfl hro
      have heval : handleClientMessage readonly flow msg = ([.writePty msg.data], flow) := by
        simp [handleClientMessage, h1, hro2]
      refine ⟨fun hcontra => absurd hcontra hro, fun hcontra => absurd hcontra hro, ?_⟩
      intro d hmem
      rw [heval] at hmem
      simp only [List.mem_singleton, Action.writePty.injEq] at hmem
      exact ⟨hro2, h1, hmem⟩
  · have hnotinput : ∀ d, Action.writePty d ∉ (handleClientMessage readonly flow msg).1 := by
      intro d hmem
      by_cases h2 : toLowerString (trimSpace msg.type) = "resize"
      · rw [show handleClientMessage readonly flow msg = ([.resizePty msg.columns msg.rows], flow)
          from by simp [handleClientMessage, h1, h2]] at hmem
        simp at hmem
      · by_cases h3 : toLowerString (trimSpace msg.type) = "ping"
        · rw [show handleClientMessage readonly flow msg =
              ([.sendText { type := "pong" }], flow)
            from by simp [handleClientMessage, h1, h2, h3]] at hmem
          simp at hmem
        · by_cases h4 : toLowerString (trimSpace msg.type) = "ack"
          · by_cases h5 : (flow.onAck msg.bytes).2 = .resume
            · rw [show handleClientMessage readonly flow msg =
                  ([.broadcastText { type := "flow_resume", message := "⚡ Output resumed" }],
                    (flow.onAck msg.bytes).1)
                from by simp [handleClientMessage, h1, h2, h3, h4, h5]] at hmem
              simp at hmem
            · rw [show handleClientMessage readonly flow msg = ([], (flow.onAck msg.bytes).1)
                from by simp [handleClientMessage, h1, h2, h3, h4, h5]] at hmem
              simp at hmem
          · rw [show handleClientMessage readonly flow msg = ([], flow)
              from by simp [handleClientMessage, h1, h2, h3, h4]] at hmem
            simp at hmem
    refine ⟨fun _ d => hnotinput d, fun _ hcontra => absurd hcontra h1, ?_⟩
    intro d hmem
    exact absurd hmem (hnotinput d)

/-- C3 witness: in a read-only bridge an `input` message produces exactly the
readonly notice and no pty write; in a read-write bridge the same message
writes its data to the pty. -/
theorem readonly_blocks_input_witness :
    (handleClientMessage true (newFlowController 1 5) { type := "input", data := "x" }).1 =
      [.sendText { type := "readonly", message := "🔒 Input blocked: read-only session" }] ∧
    (Action.writePty "x" ∉
      (handleClientMessage true (newFlowController 1 5) { type := "input", data := "x" }).1) ∧
    ((handleClientMessage false (newFlowController 1 5) { type := "input", data := "x" }).1 =
      [.writePty "x"]) := by
  refine ⟨?_, ?_, by decide⟩
  · exact (readonly_blocks_input true (newFlowController 1 5)
      { type := "input", data := "x" }).2.1 rfl (by decide)
  · exact (readonly_blocks_input true (newFlowController 1 5)
      { type := "input", data := "x" }).1 rfl "x"

/-! ## Client cap, from `Server.New` / `Server.addConn` / `Server.HandleWS` -/

/-- Normalization of `maxClients` in `New` from server.go: a non-positive
configured value becomes 1. -/
def newMaxClients (optsMaxClients : Int) : Nat :=
  if optsMaxClients ≤ 0 then 1 else optsMaxClients.toNat

/-- Method `Server.addConn` from server.go: when the connection set already holds
`maxClient` connections the attempt is refused with the client-limit error,
else the connection is inserted.  The count models `len(s.conns)`. -/
def addConn (maxClient count : Nat) : Except String Nat :=
  if maxClient ≤ count then .error "another client is already connected"
  else .ok (count + 1)

/-- Method `Server.removeConn` from server.go: deletes the connection from the set,
dropping the count by one. -/
def removeConn (count : Nat) : Nat := count - 1

/-- The connection-set operations a bridge performs over its lifetime: an
admission attempt in `HandleWS`, a departure via `removeConn`, and `Close`
clearing the whole set. -/
inductive ConnOp where
  | add
  | remove
  | closeAll
deriving DecidableEq

/-- Effect of one connection-set operation on the client count; a refused
`addConn` leaves the count unchanged. -/
def applyConnOp (maxClient : Nat) (count : Nat) (op : ConnOp) : Nat :=
  match op with
  | .add =>
    match addConn maxClient count with
    | .ok count2 => count2
    | .error _ => count
  | .remove => removeConn count
  | .closeAll => 0

/-- Run a bridge lifetime of connection-set operations from a starting count. -/
def runConns (maxClient : Nat) (count : Nat) (ops : List ConnOp) : Nat :=
  ops.foldl (applyConnOp maxClient) count

/-- The admission step of `Server.HandleWS` from server.go: on an `addConn`
error the server sends the client an `info` frame carrying the error text and
closes the connection; the client is not admitted. -/
def admitConn (maxClient count : Nat) : List Action × Nat × Bool :=
  match addConn maxClient count with
  | .error e => ([.sendText { type := "info", message := e }, .closeConn], count, false)
  | .ok count2 => ([], count2, true)

theorem runConns_le (maxClient count : Nat) (ops : List ConnOp) (h : count ≤ maxClient) :
    runConns maxClient count ops ≤ maxClient := by
  induction ops generalizing count with
  | nil => exact h
  | cons op ops ih =>
    refine ih (applyConnOp maxClient count op) ?_
    cases op with
    | add =>
      by_cases hle : maxClient ≤ count
      · simp only [applyConnOp, addConn, if_pos hle]
        omega
      · simp only [applyConnOp, addConn, if_neg hle]
        omega
    | remove =>
      simp only [applyConnOp, removeConn]
      omega
    | closeAll =>
      simp only [applyConnOp]
      omega

/-- C5: a bridge starting with no clients keeps `clientCount ≤ maxClients`
after any sequence of admissions, departures and closes (the count is a
natural number, so `0 ≤ clientCount` holds by construction); `maxClients` is
at least 1; and a client whose authentication completes while the count
already equals `maxClients` is sent an `info` frame containing "another
client is already connected" and is closed without being admitted. -/
theorem client_cap (optsMax : Int) (ops : List ConnOp) :
    runConns (newMaxClients optsMax) 0 ops ≤ newMaxClients optsMax ∧
    1 ≤ newMaxClients optsMax ∧
    (∀ count : Nat, count = newMaxClients optsMax →
      admitConn (newMaxClients optsMax) count =
        ([.sendText { type := "info", message := "another client is already connected" },
            .closeConn], count, false)) := by
  have hmax : 1 ≤ newMaxClients optsMax := by
    unfold newMaxClients
    split
    · exact le_refl 1
    · rename_i hpos
      omega
  refine ⟨runConns_le _ 0 ops (by omega), hmax, ?_⟩
  intro count hcount
  simp [admitConn, addConn, hcount]

/-- C5 witness: with `maxClients = 1`, a lifetime of two admission attempts
stays within the cap, and a second admission at full capacity yields the
client-limit `info` frame and a close without admission. -/
theorem client_cap_witness :
    runConns (newMaxClients 1) 0 [.add, .add] ≤ newMaxClients 1 ∧
    admitConn (newMaxClients 1) 1 =
      ([.sendText { type := "info", message := "another client is already connected" },
          .closeConn], 1, false) := by
  refine ⟨(client_cap 1 [.add, .add]).1, ?_⟩
  exact (client_cap 1 []).2.2 1 (by decide)

/-! ## Origin policy (spec-modelled: the current server source is not under
`src/`; only its unit tests are) -/

/-- Modelled from the spec: `parseHostname` of the websocket server — the
hostname of a `host[:port]` value, stripping the port and the brackets of an
IPv6 literal. -/
def parseHostname (hostport : String) : String :=
  match hostport.data with
  | '[' :: rest => ⟨rest.takeWhile (fun c => c ≠ ']')⟩
  | cs => ⟨cs.takeWhile (fun c => c ≠ ':')⟩

/-- Split a `scheme://rest` character list at the first `://`, accumulating
the scheme seen so far. -/
def splitScheme : List Char → List Char → Option (List Char × List Char)
  | [], _ => none
  | ':' :: '/' :: '/' :: rest, acc => some (acc.reverse, rest)
  | c :: rest, acc => splitScheme rest (c :: acc)

/-- Modelled from the spec: the hostname of an Origin header value of the
form `scheme://host[:port][/path]`, lower-cased and with the port stripped;
`none` models an Origin that URL parsing rejects. -/
def originHostname (origin : String) : Option String :=
  match splitScheme origin.data [] with
  | none => none
  | some (scheme, rest) =>
    if scheme = [] then none
    else
      let hostport : List Char := rest.takeWhile (fun c => c ≠ '/')
      if hostport = [] then none
      else some (toLowerString (parseHostname ⟨hostport⟩))

/-- Modelled from the spec (§4.3) and the server tests: accept an empty
Origin header; accept when the Origin hostname equals the request Host
hostname case-insensitively with ports stripped; accept the loopback
hostnames `localhost`, `127.0.0.1` and `::1`; reject everything else. -/
def isOriginAllowed (origin host : String) : Bool :=
  if trimSpace origin = "" then true
  else
    match originHostname (trimSpace origin) with
    | none => false
    | some h =>
      h == toLowerString (parseHostname host) || h == "localhost" ||
        h == "127.0.0.1" || h == "::1"

/-- Result of the origin check during the websocket upgrade. -/
inductive UpgradeResult where
  | accepted
  | rejected403
deriving DecidableEq

/-- Modelled from the spec: a failing origin check rejects the upgrade with
HTTP 403; an accepted one lets the upgrade proceed. -/
def checkUpgradeOrigin (origin host : String) : UpgradeResult :=
  if isOriginAllowed origin host then .accepted else .rejected403

/-- C1: a websocket upgrade whose Origin hostname (case-insensitive, port
stripped) equals the request Host hostname is accepted, and one whose
non-empty Origin carries a hostname that differs from the Host hostname and
is not `localhost`, `127.0.0.1` or `::1` is rejected with HTTP 403. -/
theorem origin_policy (origin host : String) :
    (∀ h, originHostname (trimSpace origin) = some h →
      h = toLowerString (parseHostname host) →
      checkUpgradeOrigin origin host = .accepted) ∧
    (∀ h, originHostname (trimSpace origin) = some h →
      h ≠ toLowerString (parseHostname host) → h ≠ "localhost" → h ≠ "127.0.0.1" →
      h ≠ "::1" → checkUpgradeOrigin origin host = .rejected403) := by
  have hempty : originHostname "" = none := rfl
  constructor
  · intro h hsome heq
    have hne : ¬ trimSpace origin = "" := by
      intro hemp
      rw [hemp, hempty] at hsome
      exact Option.noConfusion hsome
    have hallowed : isOriginAllowed origin host = true := by
      unfold isOriginAllowed
      rw [if_neg hne, hsome, heq]
      simp
    simp [checkUpgradeOrigin, hallowed]
  · intro h hsome hd1 hd2 hd3 hd4
    have hne : ¬ trimSpace origin = "" := by
      intro hemp
      rw [hemp, hempty] at hsome
      exact Option.noConfusion hsome
    have hdenied : isOriginAllowed origin host = false := by
      unfold isOriginAllowed
      rw [if_neg hne, hsome]
      simp [hd1, hd2, hd3, hd4]
    simp [checkUpgradeOrigin, hdenied]

/-- C1 witness: Host `abc123.trycloudflare.com` with Origin
`https://abc123.trycloudflare.com` is accepted; the same Host with Origin
`https://evil.example.com` is rejected with 403. -/
theorem origin_policy_witness :
    checkUpgradeOrigin "https://abc123.trycloudflare.com" "abc123.trycloudflare.com" =
      .accepted ∧
    checkUpgradeOrigin "https://evil.example.com" "abc123.trycloudflare.com" =
      .rejected403 := by
  constructor
  · exact (origin_policy "https://abc123.trycloudflare.com" "abc123.trycloudflare.com").1
      "abc123.trycloudflare.com" (by decide) (by decide)
  · exact (origin_policy "https://evil.example.com" "abc123.trycloudflare.com").2
      "evil.example.com" (by decide) (by decide) (by decide) (by decide) (by decide)

/-! ## Token expiry and the auth handshake -/

/-- Function `IsExpired` from `internal/auth` (src/unnamed/part_001): a zero expiry
never expires; a zero `now` is replaced by the wall clock, passed here
explicitly as `wallClock`; otherwise expired iff `!now.Before(expiresAt)`.
Times are integer nanoseconds since the epoch; the Go zero time is `0`. -/
def IsExpired (expiresAt now wallClock : Int) : Bool :=
  if expiresAt = 0 then false
  else if now = 0 then decide (expiresAt ≤ wallClock)
  else decide (expiresAt ≤ now)

/-- Modelled from the spec: `tokenExpired` of the websocket server (the
current server source is not under `src/`; its unit test pins the behavior):
a zero expiry never expires, otherwise the token is expired iff the deadline
has been reached (`!now.Before(expiresAt)`). -/
def tokenExpired (expiresAt now : Int) : Bool :=
  if expiresAt = 0 then false else decide (expiresAt ≤ now)

/-- Modelled from the spec: the server-driven auth handshake (§4.4, steps
1–2): reject with "token expired" when the token expiry is set and reached,
then with "invalid token" when the presented token differs from the expected
one (the constant-time comparison is modelled as equality), else accept. -/
def authenticate (tokenExpiresAt now : Int) (expected presented : String) :
    Except String Unit :=
  if tokenExpired tokenExpiresAt now then .error "token expired"
  else if presented ≠ expected then .error "invalid token"
  else .ok ()

/-- The auth error path of `Server.HandleWS` from server.go: a failed
handshake makes the server send an `auth_error` frame carrying the error
text and close the connection; the client is never admitted. -/
def handleAuthResult : Except String Unit → List Action × Bool
  | .ok _ => ([], true)
  | .error m => ([.sendText { type := "auth_error", message := m }, .closeConn], false)

/-- C2: when a token's expiry is set (non-zero) and the auth attempt arrives
at time `n ≥ e`, authentication fails with the "token expired" `auth_error`
and the client is not admitted, regardless of the presented token value;
`IsExpired` from `internal/auth` agrees whenever `n` is not the zero time. -/
theorem expired_token_rejected (e n : Int) (expected presented : String)
    (hset : e ≠ 0) (hreach : e ≤ n) :
    authenticate e n expected presented = .error "token expired" ∧
    handleAuthResult (authenticate e n expected presented) =
      ([.sendText { type := "auth_error", message := "token expired" }, .closeConn], false) ∧
    (n ≠ 0 → ∀ wallClock : Int, IsExpired e n wallClock = true) := by
  have hexp : tokenExpired e n = true := by
    unfold tokenExpired
    rw [if_neg hset]
    exact decide_eq_true hreach
  have hauth : authenticate e n expected presented = .error "token expired" := by
    simp [authenticate, hexp]
  refine ⟨hauth, by rw [hauth]; rfl, ?_⟩
  intro hn wallClock
  unfold IsExpired
  rw [if_neg hset, if_neg hn]
  exact decide_eq_true hreach

/-- C2 witness: a token that expired at time 50, presented with the correct
value at time 60, is rejected with the "token expired" `auth_error` and the
client is closed without admission. -/
theorem expired_token_rejected_witness :
    (50 : Int) ≠ 0 ∧ (50 : Int) ≤ 60 ∧
    authenticate 50 60 "tok" "tok" = .error "token expired" ∧
    handleAuthResult (authenticate 50 60 "tok" "tok") =
      ([.sendText { type := "auth_error", message := "token expired" }, .closeConn], false) ∧
    IsExpired 50 60 0 = true := by
  have h := expired_token_rejected 50 60 "tok" "tok" (by decide) (by decide)
  exact ⟨by decide, by decide, h.1, h.2.1, h.2.2 (by decide) 0⟩

/-! ## The admission pipeline and welcome frames -/

/-- Modelled from the spec: the frames sent to a freshly admitted client
(§4.4 step 6): `auth_ok`, then `prefs` carrying the configured ack quantum,
then `readonly` iff the bridge is read-only (the current server source is
not under `src/`; its integration tests pin this sequence). -/
def welcomeFrames (readonly : Bool) (ackQuantum : Int) : List Message :=
  { type := "auth_ok" } ::
    { type := "prefs", bytes := ackQuantum } ::
      (if readonly then [{ type := "readonly", message := "🔒 Read-only mode enabled" }] else [])

/-- The upgrade-and-admission pipeline of `Server.HandleWS`: origin check,
auth handshake, client-cap check, then the welcome frames, in that order.
The origin policy, the expiry check and the `prefs` frame are modelled from
the spec; the `auth_error` and client-limit error paths are from server.go. -/
def handleWS (origin host : String) (tokenExpiresAt now : Int) (expected presented : String)
    (maxClient count : Nat) (readonly : Bool) (ackQuantum : Int) :
    List Action × Nat × Bool :=
  if checkUpgradeOrigin origin host = .rejected403 then ([], count, false)
  else if (handleAuthResult (authenticate tokenExpiresAt now expected presented)).2 = false then
    ((handleAuthResult (authenticate tokenExpiresAt now expected presented)).1, count, false)
  else if (admitConn maxClient count).2.2 = false then admitConn maxClient count
  else
    ((welcomeFrames readonly ackQuantum).map Action.sendText,
      (admitConn maxClient count).2.1, true)

/-- C6: every client the pipeline admits is sent, in order, an `auth_ok`
frame, then a `prefs` frame whose `bytes` field is the configured ack
quantum, and then a `readonly` frame if and only if the bridge is read-only,
before normal operation begins. -/
theorem welcome_sequence (origin host : String) (e n : Int) (expected presented : String)
    (maxClient count : Nat) (readonly : Bool) (q : Int)
    (hadm : (handleWS origin host e n expected presented maxClient count readonly q).2.2
      = true) :
    (handleWS origin host e n expected presented maxClient count readonly q).1 =
      [Action.sendText { type := "auth_ok" },
        Action.sendText { type := "prefs", bytes := q }] ++
        (if readonly then
          [Action.sendText { type := "readonly", message := "🔒 Read-only mode enabled" }]
        else []) ∧
    (Action.sendText { type := "readonly", message := "🔒 Read-only mode enabled" } ∈
        (handleWS origin host e n expected presented maxClient count readonly q).1 ↔
      readonly = true) := by
  unfold handleWS at hadm ⊢
  by_cases ho : checkUpgradeOrigin origin host = .rejected403
  · rw [if_pos ho] at hadm
    exact Bool.noConfusion hadm
  · rw [if_neg ho] at hadm ⊢
    by_cases ha : (handleAuthResult (authenticate e n expected presented)).2 = false
    · rw [if_pos ha] at hadm
      exact Bool.noConfusion hadm
    · rw [if_neg ha] at hadm ⊢
      by_cases hc : (admitConn maxClient count).2.2 = false
      · rw [if_pos hc] at hadm
        exact absurd (hadm ▸ hc) (by simp)
      · rw [if_neg hc]
        constructor
        · cases readonly <;> simp [welcomeFrames]
        · cases readonly <;> simp [welcomeFrames]

/-- C6 witness: a fully successful pipeline run (valid origin, unexpired
matching token, free capacity) on a read-only bridge with ack quantum 256
emits exactly `auth_ok`, `prefs 256`, `readonly`; the same run on a
read-write bridge emits exactly `auth_ok`, `prefs 256`. -/
theorem welcome_sequence_witness :
    (handleWS "" "h" 0 1 "t" "t" 1 0 true 256).2.2 = true ∧
    (handleWS "" "h" 0 1 "t" "t" 1 0 true 256).1 =
      [Action.sendText { type := "auth_ok" },
        Action.sendText { type := "prefs", bytes := 256 },
        Action.sendText { type := "readonly", message := "🔒 Read-only mode enabled" }] ∧
    (handleWS "" "h" 0 1 "t" "t" 1 0 false 256).1 =
      [Action.sendText { type := "auth_ok" },
        Action.sendText { type := "prefs", bytes := 256 }] := by
  refine ⟨by decide, ?_, ?_⟩
  · have h := (welcome_sequence "" "h" 0 1 "t" "t" 1 0 true 256 (by decide)).1
    rw [h]
    rfl
  · have h := (welcome_sequence "" "h" 0 1 "t" "t" 1 0 false 256 (by decide)).1
    rw [h]
    rfl

/-! ## Idle deadline, from `runServer` in `internal/app` -/

/-- The idle-relevant slice of the runtime record: the reported client count
and the `IdleDeadline` field; `none` models the Go zero time, i.e. unset. -/
structure IdleState where
  clientCount : Nat
  idleDeadline : Option Int
deriving DecidableEq

/-- Initialization in `runServer`: the record starts with `ClientCount = 0`
and, when `idleTimeout > 0`, `IdleDeadline = startedAt + idleTimeout`. -/
def initIdleState (idleTimeout startedAt : Int) : IdleState :=
  { clientCount := 0,
    idleDeadline := if 0 < idleTimeout then some (startedAt + idleTimeout) else none }

/-- The `OnClientCountChange` callback of `runServer`: store the reported
count; when `idleTimeout > 0`, recompute the deadline to `now + idleTimeout`
if the count is zero and clear it otherwise. -/
def onClientCountChange (idleTimeout : Int) (st : IdleState) (count : Nat) (now : Int) :
    IdleState :=
  let st := { st with clientCount := count }
  if 0 < idleTimeout then
    if count = 0 then { st with idleDeadline := some (now + idleTimeout) }
    else { st with idleDeadline := none }
  else st

/-- Run a sequence of client-count callbacks, each a reported count paired
with the wall-clock time of the call. -/
def runIdle (idleTimeout : Int) (st : IdleState) (calls : List (Nat × Int)) : IdleState :=
  calls.foldl (fun st c => onClientCountChange idleTimeout st c.1 c.2) st

/-- The invariant the callback maintains on the idle state. -/
def idleInv (idleTimeout : Int) (st : IdleState) : Prop :=
  (0 < idleTimeout → (st.idleDeadline ≠ none ↔ st.clientCount = 0)) ∧
    (idleTimeout ≤ 0 → st.idleDeadline = none)

theorem onClientCountChange_inv (idleTimeout : Int) (st : IdleState) (count : Nat) (now : Int)
    (h : idleInv idleTimeout st) :
    idleInv idleTimeout (onClientCountChange idleTimeout st count now) := by
  obtain ⟨hpos, hnonpos⟩ := h
  unfold onClientCountChange
  by_cases ht : 0 < idleTimeout
  · rw [if_pos ht]
    by_cases hz : count = 0
    · rw [if_pos hz]
      exact ⟨fun _ => by simp [hz], fun hcontra => absurd ht (by omega)⟩
    · rw [if_neg hz]
      exact ⟨fun _ => by simp [hz], fun hcontra => absurd ht (by omega)⟩
  · rw [if_neg ht]
    have hd := hnonpos (by omega)
    exact ⟨fun hcontra => absurd hcontra ht, fun _ => by simpa using hd⟩

theorem runIdle_inv (idleTimeout : Int) (st : IdleState) (calls : List (Nat × Int))
    (h : idleInv idleTimeout st) : idleInv idleTimeout (runIdle idleTimeout st calls) := by
  induction calls generalizing st with
  | nil => exact h
  | cons c calls ih =>
    exact ih (onClientCountChange idleTimeout st c.1 c.2)
      (onClientCountChange_inv idleTimeout st c.1 c.2 h)

/-- C7: starting from session launch and across any sequence of client-count
callbacks, the idle deadline is set iff the client count is zero whenever
the idle timeout is positive; a callback reporting zero clients recomputes
it to `now + idleTimeout` and one reporting a positive count clears it; and
when the idle timeout is not positive the deadline is never set. -/
theorem idle_deadline_iff (idleTimeout startedAt : Int) (calls : List (Nat × Int)) :
    (0 < idleTimeout →
      ((runIdle idleTimeout (initIdleState idleTimeout startedAt) calls).idleDeadline ≠ none ↔
        (runIdle idleTimeout (initIdleState idleTimeout startedAt) calls).clientCount = 0)) ∧
    (idleTimeout ≤ 0 →
      (runIdle idleTimeout (initIdleState idleTimeout startedAt) calls).idleDeadline = none) ∧
    (∀ st now, 0 < idleTimeout →
      onClientCountChange idleTimeout st 0 now =
        { clientCount := 0, idleDeadline := some (now + idleTimeout) }) ∧
    (∀ st (count : Nat) now, 0 < idleTimeout → 0 < count →
      (onClientCountChange idleTimeout st count now).idleDeadline = none ∧
        (onClientCountChange idleTimeout st count now).clientCount = count) := by
  have hinit : idleInv idleTimeout (initIdleState idleTimeout startedAt) := by
    unfold idleInv initIdleState
    by_cases ht : 0 < idleTimeout
    · rw [if_pos ht]
      exact ⟨fun _ => by simp, fun hcontra => absurd ht (by omega)⟩
    · rw [if_neg ht]
      exact ⟨fun hcontra => absurd hcontra ht, fun _ => rfl⟩
  have hrun := runIdle_inv idleTimeout (initIdleState idleTimeout startedAt) calls hinit
  refine ⟨hrun.1, hrun.2, ?_, ?_⟩
  · intro st now ht
    simp [onClientCountChange, ht]
  · intro st count now ht hc
    have hz : ¬ count = 0 := by omega
    simp [onClientCountChange, ht, hz]

/-- C7 witness: with idle timeout 10 starting at time 0, the deadline starts
set; a client joining at time 3 clears it; the last client leaving at time 7
recomputes it to 17; with idle timeout 0 it is never set. -/
theorem idle_deadline_iff_witness :
    (runIdle 10 (initIdleState 10 0) [(1, 3)]).idleDeadline = none ∧
    (runIdle 10 (initIdleState 10 0) [(1, 3), (0, 7)]).idleDeadline = some 17 ∧
    ((runIdle 10 (initIdleState 10 0) [(1, 3), (0, 7)]).idleDeadline ≠ none ↔
      (runIdle 10 (initIdleState 10 0) [(1, 3), (0, 7)]).clientCount = 0) ∧
    (runIdle 0 (initIdleState 0 5) [(2, 6), (0, 9)]).idleDeadline = none := by
  refine ⟨by decide, by decide, ?_, ?_⟩
  · exact (idle_deadline_iff 10 0 [(1, 3), (0, 7)]).1 (by decide)
  · exact (idle_deadline_iff 0 5 [(2, 6), (0, 9)]).2.1 (by decide)

/-! ## Runtime session records, from `internal/runtime/state.go` -/

/-- A JSON value as serialized into a session record.  The string, boolean
and integer fields of `SessionState` map directly; the `time.Time` fields
are modelled by their integer nanosecond value, which the RFC3339Nano
encoding used by `encoding/json` represents losslessly. -/
inductive JValue where
  | str (s : String)
  | int (n : Int)
  | bool (b : Bool)
deriving DecidableEq

/-- Structure `SessionState` from state.go, with the `time.Time` fields as integer
nanoseconds (the Go zero time is `0`). -/
structure SessionState where
  id : String
  mode : String
  source : String
  readOnly : Bool
  pid : Int
  addr : String
  url : String
  startedAt : Int
  updatedAt : Int
  clientCount : Int
  settingsFile : String
deriving DecidableEq

/-- Encoding `json.MarshalIndent` of a `SessionState`: the JSON object keyed by the
struct tags of state.go. -/
def marshalSessionState (s : SessionState) : List (String × JValue) :=
  [("id", .str s.id), ("mode", .str s.mode), ("source", .str s.source),
    ("readonly", .bool s.readOnly), ("pid", .int s.pid), ("addr", .str s.addr),
    ("url", .str s.url), ("started_at", .int s.startedAt),
    ("updated_at", .int s.updatedAt), ("client_count", .int s.clientCount),
    ("settings_file", .str s.settingsFile)]

/-- Decoding by `json.Unmarshal` of a string field: an absent key leaves the Go zero
value, a key of the wrong JSON type is an error. -/
def lookupStr (obj : List (String × JValue)) (key : String) : Option String :=
  match obj.lookup key with
  | Option.none => some ""
  | some (.str s) => some s
  | some _ => none

/-- Decoding by `json.Unmarshal` of an integer or timestamp field. -/
def lookupInt (obj : List (String × JValue)) (key : String) : Option Int :=
  match obj.lookup key with
  | Option.none => some 0
  | some (.int n) => some n
  | some _ => none

/-- Decoding by `json.Unmarshal` of a boolean field. -/
def lookupBool (obj : List (String × JValue)) (key : String) : Option Bool :=
  match obj.lookup key with
  | Option.none => some false
  | some (.bool b) => some b
  | some _ => none

/-- Decoding by `json.Unmarshal` into a `SessionState`. -/
def unmarshalSessionState (obj : List (String × JValue)) : Option SessionState := do
  let id ← lookupStr obj "id"
  let mode ← lookupStr obj "mode"
  let source ← lookupStr obj "source"
  let readOnly ← lookupBool obj "readonly"
  let pid ← lookupInt obj "pid"
  let addr ← lookupStr obj "addr"
  let url ← lookupStr obj "url"
  let startedAt ← lookupInt obj "started_at"
  let updatedAt ← lookupInt obj "updated_at"
  let clientCount ← lookupInt obj "client_count"
  let settingsFile ← lookupStr obj "settings_file"
  pure { id := id, mode := mode, source := source, readOnly := readOnly, pid := pid,
         addr := addr, url := url, startedAt := startedAt, updatedAt := updatedAt,
         clientCount := clientCount, settingsFile := settingsFile }

/-- The record-stamping `SaveSession` performs before writing: `StartedAt`
defaults to the save time when zero, `UpdatedAt` is always set to the save
time. -/
def stampSession (now : Int) (state : SessionState) : SessionState :=
  { state with
    startedAt := if state.startedAt = 0 then now else state.startedAt,
    updatedAt := now }

/-- Function `SaveSession` from state.go, over an explicit runtime directory (file
name ↦ decoded JSON contents; the atomic `os.Rename` overwrite is modelled
by prepending, so lookups see the newest write).  The id-required guard
trims the id for the emptiness check but the file is written under the
untrimmed `state.ID + ".json"`, exactly as in the source. -/
def SaveSession (dir : List (String × List (String × JValue))) (now : Int)
    (state : SessionState) : Except String (List (String × List (String × JValue))) :=
  if trimSpace state.id = "" then .error "session id is required"
  else .ok ((state.id ++ ".json", marshalSessionState (stampSession now state)) :: dir)

/-- Function `LoadSession` from state.go: trim the id, require it non-empty, read the
file `id + ".json"` and unmarshal it. -/
def LoadSession (dir : List (String × List (String × JValue))) (id : String) :
    Except String SessionState :=
  if trimSpace id = "" then .error "session id is required"
  else
    match dir.lookup (trimSpace id ++ ".json") with
    | Option.none => .error "file does not exist"
    | some obj =>
      match unmarshalSessionState obj with
      | Option.none => .error "invalid session json"
      | some state => .ok state

theorem unmarshal_marshal (s : SessionState) :
    unmarshalSessionState (marshalSessionState s) = some s := rfl

/-- C9 counterexample: the record id `" x"` is a non-empty string, and
`SaveSession` accepts it (its guard only requires the trimmed id to be
non-empty) and writes the file `" x.json"`; but `LoadSession " x"` trims the
id and reads `"x.json"`, which does not exist, so loading the record back by
its id fails instead of returning the saved record. -/
theorem save_load_counterexample :
    (" x" : String) ≠ "" ∧
    SaveSession [] 100
        { id := " x", mode := "cmd", source := "sh", readOnly := false, pid := 7,
          addr := "a", url := "u", startedAt := 5, updatedAt := 9, clientCount := 0,
          settingsFile := "" } =
      .ok [(" x.json",
        marshalSessionState
          { id := " x", mode := "cmd", source := "sh", readOnly := false, pid := 7,
            addr := "a", url := "u", startedAt := 5, updatedAt := 100, clientCount := 0,
            settingsFile := "" })] ∧
    LoadSession
        [(" x.json",
          marshalSessionState
            { id := " x", mode := "cmd", source := "sh", readOnly := false, pid := 7,
              addr := "a", url := "u", startedAt := 5, updatedAt := 100, clientCount := 0,
              settingsFile := "" })] " x" =
      .error "file does not exist" := by
  refine ⟨by decide, rfl, rfl⟩

/-- C9 (amended): for every session record whose id is non-empty and carries
no surrounding whitespace, saving it and then loading it by that id returns
exactly the record as persisted — the input record with `UpdatedAt` stamped
to the save time and a zero `StartedAt` defaulted — so the JSON round-trip
loses nothing on any field, in particular on the timestamp and integer
fields. -/
theorem save_load_roundtrip (dir : List (String × List (String × JValue))) (now : Int)
    (s : SessionState) (hne : s.id ≠ "") (htrim : trimSpace s.id = s.id) :
    SaveSession dir now s = .ok ((s.id ++ ".json", marshalSessionState (stampSession now s)) :: dir) ∧
    LoadSession ((s.id ++ ".json", marshalSessionState (stampSession now s)) :: dir) s.id =
      .ok (stampSession now s) ∧
    (stampSession now s).startedAt = (if s.startedAt = 0 then now else s.startedAt) ∧
    (stampSession now s).updatedAt = now ∧
    (stampSession now s).pid = s.pid ∧
    (stampSession now s).clientCount = s.clientCount := by
  have hid : ¬ trimSpace s.id = "" := by rw [htrim]; exact hne
  refine ⟨?_, ?_, rfl, rfl, rfl, rfl⟩
  · unfold SaveSession
    rw [if_neg hid]
  · unfold LoadSession
    rw [htrim, if_neg hne]
    have hlook : List.lookup (s.id ++ ".json")
        ((s.id ++ ".json", marshalSessionState (stampSession now s)) :: dir) =
        some (marshalSessionState (stampSession now s)) := by
      simp [List.lookup]
    rw [hlook]
    rfl

/-- C9 witness for the amended claim: a concrete record with id `"rc-1"`
saves into an empty directory and loads back equal to the stamped record,
with its timestamps and integers intact. -/
theorem save_load_roundtrip_witness :
    ("rc-1" : String) ≠ "" ∧ trimSpace "rc-1" = "rc-1" ∧
    (let s : SessionState :=
      { id := "rc-1", mode := "cmd", source := "sh", readOnly := true, pid := 42,
        addr := "127.0.0.1:7681", url := "http://127.0.0.1:7681/", startedAt := 0,
        updatedAt := 9, clientCount := 3, settingsFile := "s.toml" }
     LoadSession ((s.id ++ ".json", marshalSessionState (stampSession 200 s)) :: []) s.id =
       .ok (stampSession 200 s) ∧
     (stampSession 200 s).startedAt = 200 ∧ (stampSession 200 s).updatedAt = 200 ∧
     (stampSession 200 s).pid = 42 ∧ (stampSession 200 s).clientCount = 3) := by
  refine ⟨by decide, by decide, ?_, by decide, by decide, by decide, by decide⟩
  exact (save_load_roundtrip []
    200
    { id := "rc-1", mode := "cmd", source := "sh", readOnly := true, pid := 42,
      addr := "127.0.0.1:7681", url := "http://127.0.0.1:7681/", startedAt := 0,
      updatedAt := 9, clientCount := 3, settingsFile := "s.toml" }
    (by decide) (by decide)).2.1

end RC
